import Mathlib

/-!
Shallow embedding of the CareCast core: the staff-allocation optimizer
(`CareCast/optimization/staff_optimizer.py`) and the forecasting pipeline
(`CareCast/models/ml_pipeline.py`), together with theorems settling the
specification claims about them.

Modelling conventions:
* Python `float` values (predicted demand, regressor outputs, budgets) are
  modelled as `ℚ`; Python `int` values as `ℤ`.
* Python `int(x)` (truncation toward zero) is `Int.tdiv` on exact rationals.
  `int(c * 0.3)` and `int(s * 0.9)` on moderate integer inputs evaluate, in
  IEEE double arithmetic, to the exact truncations of `3c/10` and `9s/10`
  (the relative error of the rounded constant is below half an ulp), so they
  are embedded as `(3*c).tdiv 10` and `(9*s).tdiv 10`.
* Partial dict lookups (`d.get(k, default)`, `'k' in d`) are modelled with
  `Option`.
* The external LP solver (PuLP/CBC) is modelled by its interface: it either
  raises, or returns a status together with variable values; on optimal
  status the values satisfy every constraint of the assembled problem and
  are integral.  `pulp.LpStatus` maps the optimal status code to the string
  `"Optimal"`.
* pandas `.rolling(window=w, min_periods=1)` statistics at row `t` are the
  statistics of rows `max(0, t-w+1) .. t`; pandas `.std()` uses `ddof = 1`,
  so a one-element window yields NaN (modelled as `none`); the standard
  deviation itself is represented by its square (the sample variance),
  which is rational, two standard deviations being equal iff their squares
  are.
-/

namespace CareCast

/-- The staff categories of `StaffOptimizer.staff_types`. -/
inductive Category
  | Nurses
  | Doctors
  | Support_Staff
deriving DecidableEq

/-- The shifts of `StaffOptimizer.shifts`. -/
inductive Shift
  | Morning
  | Evening
  | Night
deriving DecidableEq

/-- `self.staff_types = ['Nurses', 'Doctors', 'Support_Staff']`. -/
def staff_types : List Category := [.Nurses, .Doctors, .Support_Staff]

/-- `self.shifts = ['Morning', 'Evening', 'Night']`. -/
def shifts : List Shift := [.Morning, .Evening, .Night]

/-- The fixed cost table `self.base_costs`. -/
def base_costs : Category → Shift → ℤ
  | .Nurses, .Morning => 25
  | .Nurses, .Evening => 28
  | .Nurses, .Night => 32
  | .Doctors, .Morning => 80
  | .Doctors, .Evening => 85
  | .Doctors, .Night => 95
  | .Support_Staff, .Morning => 18
  | .Support_Staff, .Evening => 20
  | .Support_Staff, .Night => 25

/-- `current_staff : Dict[str, Dict[str, int]]`, restricted to the three
category keys and three shift keys the optimizer reads; a `(category, shift)`
pair missing from the nested dicts is `none`. -/
def CurrentStaff := Category → Shift → Option ℤ

/-- The keys of `predicted_demand : Dict[str, float]` that the optimizer
reads (`'admissions'`, `'bed_occupancy'`); a key absent from the dict is
`none`. -/
structure Demand where
  admissions : Option ℚ
  bed_occupancy : Option ℚ

/-- The keys of the optional `constraints` dict that
`_add_custom_constraints` reads; `none` throughout also models
`constraints = None`. -/
structure Constraints where
  max_budget : Option ℚ
  min_total_staff : Option ℚ
  max_total_staff : Option ℚ

/-- Python `int(q / n)` for an exact rational `q` and positive integer `n`:
truncation toward zero of `q / n`, computed on numerator and denominator so
that it evaluates by kernel reduction. -/
def pyIntDiv (q : ℚ) (n : ℕ) : ℤ := q.num.tdiv (q.den * n)

/-- `max_change = max(2, int(current_count * 0.3))` from
`_add_operational_constraints`. -/
def max_change (c : ℤ) : ℤ := max 2 ((3 * c).tdiv 10)

/-- `nurse_ratios = {'Morning': 6, 'Evening': 8, 'Night': 12}` from
`_add_demand_constraints`. -/
def nurse_ratios : Shift → ℕ
  | .Morning => 6
  | .Evening => 8
  | .Night => 12

/-- An assignment of values to the decision variables, one per
(category, shift).  CBC returns integral values for `cat='Integer'`
variables, so values are modelled as integers. -/
def Assignment := Category → Shift → ℤ

/-- Variable bounds from the `LpVariable` declarations:
`lowBound=1, upBound=50`. -/
def bounds_ok (x : Assignment) : Bool :=
  staff_types.all fun t => shifts.all fun s =>
    decide (1 ≤ x t s) && decide (x t s ≤ 50)

/-- `total_activity = sum(predicted_demand.get(key, 0) for key in
['admissions', 'bed_occupancy'])`. -/
def total_activity (d : Demand) : ℚ :=
  d.admissions.getD 0 + d.bed_occupancy.getD 0

/-- The constraints added by `_add_demand_constraints`, as a satisfaction
check on an assignment. -/
def demand_ok (d : Demand) (x : Assignment) : Bool :=
  (match d.bed_occupancy with
   | some occ => shifts.all fun s =>
       decide (max 3 (pyIntDiv occ (nurse_ratios s)) ≤ x .Nurses s)
   | none => true) &&
  (match d.admissions with
   | some adm =>
       if 12 < adm then
         decide (12 ≤ x .Doctors .Morning) && decide (10 ≤ x .Doctors .Evening)
       else if adm < 5 then
         decide (8 ≤ x .Doctors .Morning) && decide (6 ≤ x .Doctors .Evening)
       else true
   | none => true) &&
  (if 200 < total_activity d then
     decide (8 ≤ x .Support_Staff .Morning) && decide (8 ≤ x .Support_Staff .Evening)
   else true)

/-- `sum([sum(shifts.values()) for shifts in current_staff.values() ...])`:
the total of all current staff counts, absent entries contributing 0. -/
def total_current (cs : CurrentStaff) : ℤ :=
  (staff_types.map fun t => (shifts.map fun s => (cs t s).getD 0).sum).sum

/-- `current_staff.get(t, {}).get(s, 5)`: lookup with default 5. -/
def currentOr5 (cs : CurrentStaff) (t : Category) (s : Shift) : ℤ :=
  (cs t s).getD 5

/-- The constraints added by `_add_operational_constraints`: stability
bands around the current allocation, hard night floors, and the
weekend heuristic triggered by `total_current > 80`
(`int(... * 0.9)` embedded as `(9 * _).tdiv 10`). -/
def operational_ok (cs : CurrentStaff) (x : Assignment) : Bool :=
  (staff_types.all fun t => shifts.all fun s =>
    match cs t s with
    | some c =>
        decide (c - max_change c ≤ x t s) && decide (x t s ≤ c + max_change c)
    | none => true) &&
  decide (5 ≤ x .Doctors .Night) &&
  decide (10 ≤ x .Nurses .Night) &&
  (if 80 < total_current cs then
     [Category.Nurses, Category.Doctors].all fun t =>
       decide ((9 * (currentOr5 cs t .Morning + currentOr5 cs t .Evening)).tdiv 10 ≤
         x t .Morning + x t .Evening)
   else true)

/-- The LP objective `sum(rate * var)` evaluated at an assignment, over the
rationals (as `pulp.value` reports it). -/
def objective_at (x : Assignment) : ℚ :=
  (staff_types.map fun t => (shifts.map fun s =>
    ((base_costs t s : ℚ) * (x t s : ℚ))).sum).sum

/-- Total staff `sum(var)` evaluated at an assignment. -/
def total_staff_at (x : Assignment) : ℤ :=
  (staff_types.map fun t => (shifts.map fun s => x t s).sum).sum

/-- The constraints added by `_add_custom_constraints`. -/
def custom_ok (cons : Constraints) (x : Assignment) : Bool :=
  (match cons.max_budget with
   | some b => decide (objective_at x ≤ b)
   | none => true) &&
  (match cons.min_total_staff with
   | some m => decide (m ≤ (total_staff_at x : ℚ))
   | none => true) &&
  (match cons.max_total_staff with
   | some m => decide ((total_staff_at x : ℚ) ≤ m)
   | none => true)

/-- Feasibility for the full problem assembled by `optimize_allocation`:
variable bounds plus the three groups of constraints.  An assignment the
solver reports as optimal satisfies this. -/
def problem_feasible (cs : CurrentStaff) (d : Demand) (cons : Constraints)
    (x : Assignment) : Bool :=
  bounds_ok x && demand_ok d x && operational_ok cs x && custom_ok cons x

/-- PuLP solver statuses (`pulp.LpStatusOptimal` etc.). -/
inductive SolveStatus
  | Optimal
  | NotSolved
  | Infeasible
  | Unbounded
  | Undefined
deriving DecidableEq

/-- The `pulp.LpStatus` table mapping a status code to its display string. -/
def LpStatusName : SolveStatus → String
  | .Optimal => "Optimal"
  | .NotSolved => "Not Solved"
  | .Infeasible => "Infeasible"
  | .Unbounded => "Unbounded"
  | .Undefined => "Undefined"

/-- Outcome of `prob.solve(pulp.PULP_CBC_CMD(msg=0))`: either the call
returns, leaving `prob.status` set and the variables valued, or it raises an
exception (e.g. the CBC binary is unavailable). -/
inductive SolverOutcome
  | returns (st : SolveStatus) (x : Assignment)
  | raises

/-- The fields of the result dict that the claims are about. -/
structure AllocationResult where
  optimized_allocation : Category → Shift → ℤ
  total_cost : ℤ
  objective_value : ℚ
  solver_status : String

/-- `StaffOptimizer._extract_solution`: read each variable's value with
`int(pulp.value(v))` (the identity on the integral CBC solution), accumulate
`total_cost += count * self.base_costs[t][s]`, and report
`objective_value = pulp.value(prob.objective)` and
`solver_status = pulp.LpStatus[prob.status]`. -/
def extract_solution (st : SolveStatus) (x : Assignment) : AllocationResult :=
  { optimized_allocation := x
    total_cost :=
      (staff_types.map fun t => (shifts.map fun s => x t s * base_costs t s).sum).sum
    objective_value := objective_at x
    solver_status := LpStatusName st }

/-- The per-shift `adjustment` computed inside
`StaffOptimizer._fallback_solution`. -/
def adjustment (d : Demand) (s : Shift) : ℤ :=
  (match d.admissions with
   | some adm =>
       if 10 < adm then (if s = .Morning ∨ s = .Evening then 2 else 1)
       else if adm < 5 then -1
       else 0
   | none => 0) +
  (match d.bed_occupancy with
   | some occ => if 200 < occ then 1 else 0
   | none => 0)

/-- A single cell of the fallback allocation:
`max(1, current_staff.get(t, {}).get(s, 5) + adjustment)`. -/
def fallback_count (cs : CurrentStaff) (d : Demand) (t : Category) (s : Shift) : ℤ :=
  max 1 (currentOr5 cs t s + adjustment d s)

/-- `StaffOptimizer._fallback_solution`: heuristic allocation, its summed
cost (also reported as the objective value), and the literal status string. -/
def fallback_solution (cs : CurrentStaff) (d : Demand) : AllocationResult :=
  { optimized_allocation := fun t s => fallback_count cs d t s
    total_cost :=
      (staff_types.map fun t =>
        (shifts.map fun s => fallback_count cs d t s * base_costs t s).sum).sum
    objective_value :=
      ((staff_types.map fun t =>
        (shifts.map fun s => fallback_count cs d t s * base_costs t s).sum).sum : ℤ)
    solver_status := "heuristic_fallback" }

/-- `StaffOptimizer.optimize_allocation`, after assembling the problem:
the solve call either raises — there is no `try`/`except` in the method, so
the exception propagates to the caller (`Except.error`) — or returns, and
the method branches on `prob.status == pulp.LpStatusOptimal` between
`_extract_solution` and `_fallback_solution`. -/
def optimize_allocation (cs : CurrentStaff) (d : Demand)
    (outcome : SolverOutcome) : Except Unit AllocationResult :=
  match outcome with
  | .raises => .error ()
  | .returns st x =>
      .ok (if st = .Optimal then extract_solution st x else fallback_solution cs d)

/-! ### Forecasting pipeline (`HospitalMLPipeline`) -/

/-- The target resources `self.target_columns`. -/
inductive Resource
  | admissions
  | bed_occupancy
  | oxygen_level
deriving DecidableEq

/-- The trailing window pandas `.rolling(window=w, min_periods=1)` sees at
row `t` of a series: rows `max(0, t-w+1) .. t`, i.e. the portion of the
first `t+1` values that remains after dropping all but the last `w`. -/
def rollWindow (w : ℕ) (xs : List ℚ) (t : ℕ) : List ℚ :=
  (xs.take (t + 1)).drop (t + 1 - w)

/-- `df[col].rolling(window=w, min_periods=1).mean()` at row `t`
(`create_lag_features` uses `w = 6` and `w = 24`). -/
def roll_mean (w : ℕ) (xs : List ℚ) (t : ℕ) : ℚ :=
  let win := rollWindow w xs t
  win.sum / win.length

/-- The square of `df[col].rolling(window=6, min_periods=1).std()` at row
`t`: pandas `.std()` uses `ddof = 1`, so a window holding a single
observation divides by zero and yields NaN (`none`); otherwise the sample
variance of the window.  The standard deviation is the (irrational) square
root of this value, so two standard deviations agree iff these squares do. -/
def roll_std_sq (w : ℕ) (xs : List ℚ) (t : ℕ) : Option ℚ :=
  let win := rollWindow w xs t
  if win.length ≤ 1 then none
  else
    some ((win.map fun v => (v - win.sum / win.length) ^ 2).sum /
      ((win.length : ℚ) - 1))

/-- Modelled from the spec: "the conventional statistic over the trailing
min(w, t+1) values" — the last `min w (t+1)` of the first `t+1` values of
the series. -/
def trailingValues (w : ℕ) (xs : List ℚ) (t : ℕ) : List ℚ :=
  (xs.take (t + 1)).drop (t + 1 - min w (t + 1))

/-- Conventional mean of a list of values. -/
def listMean (l : List ℚ) : ℚ := l.sum / l.length

/-- Conventional sample variance (`ddof = 1`) of a list of values: the
square of the conventional sample standard deviation. -/
def listSampleVar (l : List ℚ) : ℚ :=
  (l.map fun v => (v - listMean l) ^ 2).sum / ((l.length : ℚ) - 1)

/-- One (resource, horizon) cell of `HospitalMLPipeline.predict_resources`:
if a model named `f"{col}_next_{h}h"` is registered, the clipped regressor
output `max(0, pred)`; otherwise the fallback
`df[col].iloc[-1] if col in df.columns else 0`.  `models r h` is the raw
regressor output for the pair when a model is registered; `latest r` is the
resource's latest observed value when the column is present. -/
def predict_value (models : Resource → ℕ → Option ℚ)
    (latest : Resource → Option ℚ) (r : Resource) (h : ℕ) : ℚ :=
  match models r h with
  | some pred => max 0 pred
  | none => (latest r).getD 0

/-! ### Concrete fixtures used by witnesses and counterexamples -/

/-- An empty `current_staff` dict. -/
def csEmpty : CurrentStaff := fun _ _ => none

/-- `current_staff = {'Nurses': {'Morning': 100}}`. -/
def csBig : CurrentStaff := fun t s =>
  match t, s with
  | .Nurses, .Morning => some 100
  | _, _ => none

/-- `current_staff = {'Nurses': {'Morning': 10}}`. -/
def csW : CurrentStaff := fun t s =>
  match t, s with
  | .Nurses, .Morning => some 10
  | _, _ => none

/-- A `predicted_demand` dict with neither key. -/
def dNone : Demand := ⟨none, none⟩

/-- `predicted_demand = {'bed_occupancy': 60}`. -/
def dW : Demand := ⟨none, some 60⟩

/-- `constraints = None`. -/
def consW : Constraints := ⟨none, none, none⟩

/-- A feasible assignment for `csW`, `dW`, `consW`. -/
def xW : Assignment := fun t s =>
  match t, s with
  | .Nurses, .Morning => 10
  | .Nurses, .Evening => 7
  | .Nurses, .Night => 10
  | .Doctors, _ => 5
  | .Support_Staff, _ => 1

/-- The all-ones assignment. -/
def xOne : Assignment := fun _ _ => 1

/-- A four-row series. -/
def xs0 : List ℚ := [1, 2, 3, 4]

/-- A series agreeing with `xs0` on its first three rows only. -/
def ys0 : List ℚ := [1, 2, 3, 99]

/-! ### Claims -/

/-- C8: for every (category, shift), the heuristic fallback allocation equals
`max(1, current + adjustment)` where the adjustment is +2 for Morning and
Evening and +1 for Night when predicted admissions > 10, −1 on all shifts
when predicted admissions < 5, plus a further +1 on all shifts when
predicted bed occupancy > 200; and in particular with admissions = 3 (and
no occupancy key) every shift's count is `max(1, current − 1)`. -/
theorem claim_C8 (cs : CurrentStaff) (d : Demand) (t : Category) (s : Shift) :
    ((fallback_solution cs d).optimized_allocation t s =
      max 1 ((cs t s).getD 5 +
        ((match d.admissions with
          | some adm =>
              if 10 < adm then (if s = .Morning ∨ s = .Evening then 2 else 1)
              else if adm < 5 then -1
              else 0
          | none => 0) +
         (match d.bed_occupancy with
          | some occ => if 200 < occ then 1 else 0
          | none => 0)))) ∧
    (fallback_solution cs ⟨some 3, none⟩).optimized_allocation t s =
      max 1 ((cs t s).getD 5 + -1) := by
  constructor
  · rfl
  · show max 1 (currentOr5 cs t s + adjustment ⟨some 3, none⟩ s) = _
    have h3 : adjustment ⟨some 3, none⟩ s = -1 := by
      simp [adjustment]
      norm_num
    rw [h3, currentOr5]

/-- C10: a (category, shift) pair absent from `current_staff` is given the
default current count 5 before the fallback adjustment is applied. -/
theorem claim_C10 (cs : CurrentStaff) (d : Demand) (t : Category) (s : Shift)
    (habs : cs t s = none) :
    (fallback_solution cs d).optimized_allocation t s =
      max 1 (5 + adjustment d s) := by
  show max 1 (currentOr5 cs t s + adjustment d s) = _
  rw [currentOr5, habs]
  rfl

/-- Witness for C10 at the empty `current_staff` dict. -/
theorem claim_C10_witness :
    csEmpty .Doctors .Night = none ∧
    (fallback_solution csEmpty dNone).optimized_allocation .Doctors .Night =
      max 1 (5 + adjustment dNone .Night) :=
  ⟨rfl, claim_C10 csEmpty dNone .Doctors .Night rfl⟩

/-- C5: when no model is registered for a (resource, horizon) pair,
`predict_resources` returns the resource's latest observed value for that
pair, unchanged. -/
theorem claim_C5 (models : Resource → ℕ → Option ℚ) (latest : Resource → Option ℚ)
    (r : Resource) (h : ℕ) (v : ℚ) (hm : models r h = none)
    (hv : latest r = some v) :
    predict_value models latest r h = v := by
  unfold predict_value
  rw [hm, hv]
  rfl

/-- Witness for C5: an empty registry and a latest observed value of 42. -/
theorem claim_C5_witness :
    (fun _ : Resource => fun _ : ℕ => (none : Option ℚ)) .admissions 1 = none ∧
    (fun _ : Resource => some (42 : ℚ)) .admissions = some 42 ∧
    predict_value (fun _ _ => none) (fun _ => some 42) .admissions 1 = 42 :=
  ⟨rfl, rfl, claim_C5 (fun _ _ => none) (fun _ => some 42) .admissions 1 42 rfl rfl⟩

/-- C4: every forecast value is ≥ 0 for every resource and horizon,
whatever the sign of the raw regressor output (`models` is arbitrary, so in
particular its outputs may be negative); on the no-model path the value is
the latest observation, which is ≥ 0 for inputs respecting the data model's
non-negativity invariant. -/
theorem claim_C4 (models : Resource → ℕ → Option ℚ) (latest : Resource → Option ℚ)
    (hlat : ∀ r : Resource, 0 ≤ (latest r).getD 0) (r : Resource) (h : ℕ) :
    0 ≤ predict_value models latest r h := by
  unfold predict_value
  cases models r h with
  | some pred => exact le_max_left 0 pred
  | none => exact hlat r

/-- Witness for C4: a registry whose model outputs −5 and a latest
observation of 0. -/
theorem claim_C4_witness :
    (∀ r : Resource, 0 ≤ ((fun _ : Resource => some (0 : ℚ)) r).getD 0) ∧
    0 ≤ predict_value (fun _ _ => some (-5)) (fun _ => some 0) .admissions 1 :=
  ⟨fun _ => by simp, claim_C4 (fun _ _ => some (-5)) (fun _ => some 0)
    (fun _ => by simp) .admissions 1⟩

/-- Counterexample to C7 as stated: when the solve call raises (e.g. the
CBC backend is unavailable), `optimize_allocation` has no exception handler,
so the failure propagates to the caller instead of producing the heuristic
fallback. -/
theorem claim_C7_cex :
    optimize_allocation csEmpty dNone .raises = .error () ∧
    optimize_allocation csEmpty dNone .raises ≠
      .ok (fallback_solution csEmpty dNone) :=
  ⟨rfl, fun h => Except.noConfusion h⟩

/-- C7 (amended): whenever the solve call returns a non-optimal status
(not solved, infeasible, unbounded, undefined), `optimize_allocation`
returns the deterministic heuristic fallback; an exception raised during
construction or solving, however, propagates to the caller (the API layer
catches it and re-implements the heuristic there). -/
theorem claim_C7 (cs : CurrentStaff) (d : Demand) (st : SolveStatus)
    (x : Assignment) (hst : st ≠ .Optimal) :
    optimize_allocation cs d (.returns st x) = .ok (fallback_solution cs d) := by
  show Except.ok (if st = .Optimal then extract_solution st x else fallback_solution cs d) = _
  rw [if_neg hst]

/-- Witness for C7 at infeasible status. -/
theorem claim_C7_witness :
    (SolveStatus.Infeasible ≠ SolveStatus.Optimal) ∧
    optimize_allocation csEmpty dNone (.returns .Infeasible xOne) =
      .ok (fallback_solution csEmpty dNone) :=
  ⟨by decide, claim_C7 csEmpty dNone .Infeasible xOne (by decide)⟩

/-- Counterexample to C6 as stated: on the optimal path `solver_status` is
`pulp.LpStatus[LpStatusOptimal] = "Optimal"` (capitalized), which is not a
member of `{"optimal", "heuristic_fallback"}`. -/
theorem claim_C6_cex :
    optimize_allocation csEmpty dNone (.returns .Optimal xOne) =
      .ok (extract_solution .Optimal xOne) ∧
    ¬((extract_solution .Optimal xOne).solver_status = "optimal" ∨
      (extract_solution .Optimal xOne).solver_status = "heuristic_fallback") :=
  ⟨rfl, by decide⟩

/-- C6 (amended): every result `optimize_allocation` returns reports the
path that produced it in `solver_status`, whose value is `"Optimal"` on the
optimal path and `"heuristic_fallback"` on the fallback path. -/
theorem claim_C6 (cs : CurrentStaff) (d : Demand) (outcome : SolverOutcome)
    (r : AllocationResult) (hok : optimize_allocation cs d outcome = .ok r) :
    r.solver_status = "Optimal" ∨ r.solver_status = "heuristic_fallback" := by
  cases outcome with
  | raises => exact absurd hok (by simp [optimize_allocation])
  | returns st x =>
      simp only [optimize_allocation, Except.ok.injEq] at hok
      by_cases h : st = .Optimal
      · subst h
        rw [if_pos rfl] at hok
        subst hok
        left
        rfl
      · rw [if_neg h] at hok
        subst hok
        right
        rfl

/-- Witness for C6 on the optimal path. -/
theorem claim_C6_witness :
    (extract_solution .Optimal xOne).solver_status = "Optimal" ∨
    (extract_solution .Optimal xOne).solver_status = "heuristic_fallback" :=
  claim_C6 csEmpty dNone (.returns .Optimal xOne) (extract_solution .Optimal xOne) rfl

/-- C1: on both the optimal and the fallback path `total_cost` equals the
sum over all (category, shift) pairs of the returned count times the rate
of the fixed cost table, and on the optimal path the recomputed total
equals the reported objective value exactly (hence within rounding). -/
theorem claim_C1 (st : SolveStatus) (x : Assignment) (cs : CurrentStaff) (d : Demand) :
    ((extract_solution st x).total_cost =
      (extract_solution st x).optimized_allocation .Nurses .Morning * 25 +
      (extract_solution st x).optimized_allocation .Nurses .Evening * 28 +
      (extract_solution st x).optimized_allocation .Nurses .Night * 32 +
      (extract_solution st x).optimized_allocation .Doctors .Morning * 80 +
      (extract_solution st x).optimized_allocation .Doctors .Evening * 85 +
      (extract_solution st x).optimized_allocation .Doctors .Night * 95 +
      (extract_solution st x).optimized_allocation .Support_Staff .Morning * 18 +
      (extract_solution st x).optimized_allocation .Support_Staff .Evening * 20 +
      (extract_solution st x).optimized_allocation .Support_Staff .Night * 25) ∧
    (((extract_solution st x).total_cost : ℚ) = (extract_solution st x).objective_value) ∧
    ((fallback_solution cs d).total_cost =
      (fallback_solution cs d).optimized_allocation .Nurses .Morning * 25 +
      (fallback_solution cs d).optimized_allocation .Nurses .Evening * 28 +
      (fallback_solution cs d).optimized_allocation .Nurses .Night * 32 +
      (fallback_solution cs d).optimized_allocation .Doctors .Morning * 80 +
      (fallback_solution cs d).optimized_allocation .Doctors .Evening * 85 +
      (fallback_solution cs d).optimized_allocation .Doctors .Night * 95 +
      (fallback_solution cs d).optimized_allocation .Support_Staff .Morning * 18 +
      (fallback_solution cs d).optimized_allocation .Support_Staff .Evening * 20 +
      (fallback_solution cs d).optimized_allocation .Support_Staff .Night * 25) := by
  refine ⟨?_, ?_, ?_⟩
  · simp [extract_solution, staff_types, shifts, base_costs]
    ring
  · simp [extract_solution, objective_at, staff_types, shifts, base_costs]
    ring
  · simp [fallback_solution, staff_types, shifts, base_costs]
    ring

/-- Membership of every category in the fixed category list. -/
theorem mem_staff_types (t : Category) : t ∈ staff_types := by
  cases t <;> simp [staff_types]

/-- Membership of every shift in the fixed shift list. -/
theorem mem_shifts (s : Shift) : s ∈ shifts := by
  cases s <;> simp [shifts]

/-- Split feasibility of the assembled problem into its four groups. -/
theorem feasible_parts {cs : CurrentStaff} {d : Demand} {cons : Constraints}
    {x : Assignment} (h : problem_feasible cs d cons x = true) :
    bounds_ok x = true ∧ demand_ok d x = true ∧ operational_ok cs x = true ∧
      custom_ok cons x = true := by
  simp only [problem_feasible, Bool.and_eq_true] at h
  exact ⟨h.1.1.1, h.1.1.2, h.1.2, h.2⟩

/-- The variable bounds hold at any feasible assignment. -/
theorem bounds_of_feasible {cs : CurrentStaff} {d : Demand} {cons : Constraints}
    {x : Assignment} (h : problem_feasible cs d cons x = true)
    (t : Category) (s : Shift) : 1 ≤ x t s ∧ x t s ≤ 50 := by
  have hb := (feasible_parts h).1
  simp only [bounds_ok, List.all_eq_true, Bool.and_eq_true, decide_eq_true_eq] at hb
  exact hb t (mem_staff_types t) s (mem_shifts s)

/-- The stability band holds at any feasible assignment, for every pair
present in `current_staff`. -/
theorem stability_of_feasible {cs : CurrentStaff} {d : Demand} {cons : Constraints}
    {x : Assignment} (h : problem_feasible cs d cons x = true)
    (t : Category) (s : Shift) (c : ℤ) (hc : cs t s = some c) :
    c - max_change c ≤ x t s ∧ x t s ≤ c + max_change c := by
  have ho := (feasible_parts h).2.2.1
  simp only [operational_ok, Bool.and_eq_true] at ho
  have h1 := ho.1.1.1
  simp only [List.all_eq_true] at h1
  have h2 := h1 t (mem_staff_types t) s (mem_shifts s)
  rw [hc] at h2
  simp only [Bool.and_eq_true, decide_eq_true_eq] at h2
  exact h2

/-- The nurse-minimum constraints hold at any feasible assignment when the
occupancy key is present. -/
theorem nursemin_of_feasible {cs : CurrentStaff} {d : Demand} {cons : Constraints}
    {x : Assignment} (h : problem_feasible cs d cons x = true)
    (occ : ℚ) (hocc : d.bed_occupancy = some occ) (s : Shift) :
    max 3 (pyIntDiv occ (nurse_ratios s)) ≤ x .Nurses s := by
  have hd := (feasible_parts h).2.1
  simp only [demand_ok, Bool.and_eq_true] at hd
  have h1 := hd.1.1
  rw [hocc] at h1
  simp only [List.all_eq_true, decide_eq_true_eq] at h1
  exact h1 s (mem_shifts s)

/-- `max(2, int(c * 0.3))` equals `max(2, ⌊3c/10⌋)` (Int `/` is floor
division for a positive divisor): truncation and floor agree for `c ≥ 0`,
and for `c < 0` both arguments are dominated by the 2. -/
theorem max_change_eq_floor (c : ℤ) : max_change c = max 2 (3 * c / 10) := by
  unfold max_change
  rcases le_or_lt 0 c with hc | hc
  · rw [Int.tdiv_eq_ediv (by linarith) (by norm_num)]
  · have h3 : 3 * c ≤ 0 := by linarith
    have ht : (3 * c).tdiv 10 ≤ 0 := by
      have hgen := Int.tdiv_nonneg (a := -(3 * c)) (b := 10) (by linarith) (by norm_num)
      rw [Int.neg_tdiv] at hgen
      linarith
    have he : 3 * c / 10 ≤ 0 := by
      have hgen := Int.ediv_le_ediv (c := 10) (by norm_num) h3
      simpa using hgen
    omega

/-- `max(3, int(q / r))` equals `max(3, ⌊q / r⌋)` for a positive integer
ratio `r`: truncation and floor agree for `q ≥ 0`, and for `q < 0` both
arguments are dominated by the 3. -/
theorem pyIntDiv_max3 (q : ℚ) (r : ℕ) (hr : 0 < r) :
    max 3 ⌊q / (r : ℚ)⌋ = max 3 (pyIntDiv q r) := by
  have hdpos : 0 < q.den := q.den_pos
  have hden : (0 : ℤ) < ((q.den * r : ℕ) : ℤ) := by
    exact_mod_cast Nat.mul_pos hdpos hr
  have hq : q / (r : ℚ) = (q.num : ℚ) / ((q.den * r : ℕ) : ℚ) := by
    conv_lhs => rw [← Rat.num_div_den q]
    rw [div_div]
    push_cast
    ring
  rw [hq, Rat.floor_intCast_div_natCast]
  unfold pyIntDiv
  have hcast : ((q.den * r : ℕ) : ℤ) = (q.den : ℤ) * (r : ℤ) := by push_cast; ring
  rcases le_or_lt 0 q.num with hn | hn
  · rw [hcast, ← Int.tdiv_eq_ediv hn (by rw [← hcast]; exact le_of_lt hden)]
  · have ht : q.num.tdiv ((q.den : ℤ) * (r : ℤ)) ≤ 0 := by
      have hgen := Int.tdiv_nonneg (a := -q.num) (b := (q.den : ℤ) * (r : ℤ))
        (by linarith) (by rw [← hcast]; exact le_of_lt hden)
      rw [Int.neg_tdiv] at hgen
      linarith
    have he : q.num / ((q.den * r : ℕ) : ℤ) ≤ 0 := by
      have hgen := Int.ediv_le_ediv (b := (0 : ℤ)) (by rw [← hcast] at *; exact hden)
        (le_of_lt hn)
      simpa using hgen
    rw [hcast] at he ⊢
    omega

/-- Feasibility of the fixture assignment `xW` for `csW`, `dW`, `consW`:
the one rational addition (`total_activity`) is rewritten first, after
which the whole check evaluates. -/
theorem problem_feasible_csW : problem_feasible csW dW consW xW = true := by
  have hta : total_activity dW = 60 := by simp [total_activity, dW]
  simp only [problem_feasible, demand_ok, hta]
  decide

/-- Counterexample to C2 as stated: with `current_staff` holding 100 Morning
nurses and no demand keys, the fallback path returns 100 Morning nurses,
above the claimed upper bound of 50 (the fallback clamps only from below). -/
theorem claim_C2_cex :
    optimize_allocation csBig dNone (.returns .Infeasible xOne) =
      .ok (fallback_solution csBig dNone) ∧
    (fallback_solution csBig dNone).optimized_allocation .Nurses .Morning = 100 ∧
    ¬((fallback_solution csBig dNone).optimized_allocation .Nurses .Morning ≤ 50) := by
  refine ⟨rfl, ?_, ?_⟩
  · decide
  · decide

/-- C2 (amended): on the fallback path every returned count is at least 1,
unconditionally — in particular also for inputs whose assembled problem is
infeasible, the very cases that trigger the fallback; on the optimal path
(a solver solution satisfying the assembled constraints) every count lies
in [1, 50] and within ± max(2, ⌊0.3 × current⌋) of the current count for
every pair present in `current_staff`.  The upper bound of 50 does not hold
on the fallback path. -/
theorem claim_C2 (cs : CurrentStaff) (d : Demand) (cons : Constraints)
    (x : Assignment) :
    (∀ t s, 1 ≤ (fallback_solution cs d).optimized_allocation t s) ∧
    (problem_feasible cs d cons x = true →
      (∀ t s, 1 ≤ (extract_solution .Optimal x).optimized_allocation t s ∧
        (extract_solution .Optimal x).optimized_allocation t s ≤ 50) ∧
      (∀ t s c, cs t s = some c →
        |(extract_solution .Optimal x).optimized_allocation t s - c| ≤
          max 2 (3 * c / 10))) := by
  refine ⟨?_, fun hfeas => ⟨?_, ?_⟩⟩
  · intro t s
    exact le_max_left 1 _
  · intro t s
    exact bounds_of_feasible hfeas t s
  · intro t s c hc
    have hst := stability_of_feasible hfeas t s c hc
    have hx : (extract_solution .Optimal x).optimized_allocation t s = x t s := rfl
    rw [hx, ← max_change_eq_floor]
    exact abs_le.mpr ⟨by linarith [hst.1], by linarith [hst.2]⟩

/-- Witness for C2: the unconditional fallback bound at the infeasible
counterexample input `csBig`, and the optimal-path bounds discharged at the
concrete feasible instance `csW`, `dW`, `consW`, `xW`. -/
theorem claim_C2_witness :
    (∀ t s, 1 ≤ (fallback_solution csBig dNone).optimized_allocation t s) ∧
    problem_feasible csW dW consW xW = true ∧
    ((∀ t s, 1 ≤ (extract_solution .Optimal xW).optimized_allocation t s ∧
       (extract_solution .Optimal xW).optimized_allocation t s ≤ 50) ∧
     (∀ t s c, csW t s = some c →
       |(extract_solution .Optimal xW).optimized_allocation t s - c| ≤
         max 2 (3 * c / 10))) :=
  ⟨(claim_C2 csBig dNone consW xOne).1, problem_feasible_csW,
    (claim_C2 csW dW consW xW).2 problem_feasible_csW⟩

/-- C9: when `predicted_demand` contains `bed_occupancy` and the solver
reports optimal, the returned nurse count for each shift is at least
`max(3, ⌊occupancy / ratio⌋)` with ratio 6/8/12 for Morning/Evening/Night. -/
theorem claim_C9 (cs : CurrentStaff) (d : Demand) (cons : Constraints)
    (x : Assignment) (occ : ℚ) (hocc : d.bed_occupancy = some occ)
    (hfeas : problem_feasible cs d cons x = true) (s : Shift) :
    max 3 ⌊occ / (nurse_ratios s : ℚ)⌋ ≤
      (extract_solution .Optimal x).optimized_allocation .Nurses s := by
  have hmin := nursemin_of_feasible hfeas occ hocc s
  have hr : 0 < nurse_ratios s := by cases s <;> norm_num [nurse_ratios]
  rw [pyIntDiv_max3 occ (nurse_ratios s) hr]
  exact hmin

/-- Witness for C9 at a concrete feasible instance with occupancy 60. -/
theorem claim_C9_witness :
    dW.bed_occupancy = some 60 ∧ problem_feasible csW dW consW xW = true ∧
    max 3 ⌊(60 : ℚ) / (nurse_ratios .Morning : ℚ)⌋ ≤
      (extract_solution .Optimal xW).optimized_allocation .Nurses .Morning :=
  ⟨rfl, problem_feasible_csW, claim_C9 csW dW consW xW 60 rfl problem_feasible_csW .Morning⟩

/-- Counterexample to C3 as stated: the 6-step rolling standard deviation
does not produce a value at the earliest row — pandas `.std()` divides by
`n - ddof = 0` on the one-element window, yielding NaN. -/
theorem claim_C3_cex : roll_std_sq 6 [(1 : ℚ), 2, 3] 0 = none := rfl

/-- C3 (amended): the rolling statistics use only past-and-current values
(series agreeing on their first `t+1` values agree on the row-`t`
statistic); for every row `t` of the series the window holds exactly the
trailing `min(w, t+1)` values; the rolling means (6-step, 24-step) equal,
at every row including row 0 and for series of any length, the
conventional mean of the trailing `min(w, t+1)` values; the 6-step rolling
standard deviation has no value at row 0 (one-element sample standard
deviation, NaN) and at every row `t ≥ 1` of the series equals the
conventional sample standard deviation (`ddof = 1`) of the trailing
`min(w, t+1)` values (stated on squares, two nonnegative standard
deviations being equal iff their squares are). -/
theorem claim_C3 (xs ys : List ℚ) (w t : ℕ) :
    (xs.take (t + 1) = ys.take (t + 1) →
      roll_mean w xs t = roll_mean w ys t ∧
      roll_std_sq w xs t = roll_std_sq w ys t) ∧
    (t < xs.length → (rollWindow w xs t).length = min w (t + 1)) ∧
    (roll_mean w xs t = listMean (trailingValues w xs t)) ∧
    (roll_std_sq w xs 0 = none) ∧
    (2 ≤ w → 1 ≤ t → t < xs.length →
      roll_std_sq w xs t = some (listSampleVar (trailingValues w xs t))) := by
  have htr : trailingValues w xs t = rollWindow w xs t := by
    unfold trailingValues rollWindow
    congr 1
    omega
  refine ⟨fun hpre => ?_, fun ht => ?_, ?_, ?_, fun hw ht1 ht => ?_⟩
  · have hwin_eq : rollWindow w xs t = rollWindow w ys t := by
      unfold rollWindow
      rw [hpre]
    constructor
    · unfold roll_mean
      rw [hwin_eq]
    · unfold roll_std_sq
      rw [hwin_eq]
  · unfold rollWindow
    rw [List.length_drop, List.length_take]
    omega
  · unfold roll_mean listMean
    rw [htr]
  · have h01 : ((xs.take 1).drop (1 - w)).length ≤ 1 := by
      rw [List.length_drop, List.length_take]
      omega
    simp only [roll_std_sq, rollWindow, if_pos h01]
  · have hlen : (rollWindow w xs t).length = min w (t + 1) := by
      unfold rollWindow
      rw [List.length_drop, List.length_take]
      omega
    have hgt : ¬(rollWindow w xs t).length ≤ 1 := by
      rw [hlen]
      omega
    simp only [roll_std_sq, if_neg hgt]
    unfold listSampleVar listMean
    rw [htr]

/-- Witness for C3 at the four-row series `xs0` and row 2, paired with a
series differing only after row 2; the mean conjuncts need no hypothesis
and are also instantiated at row 0. -/
theorem claim_C3_witness :
    xs0.take 3 = ys0.take 3 ∧ 2 < xs0.length ∧ 2 ≤ 6 ∧ 1 ≤ 2 ∧
    ((roll_mean 6 xs0 2 = roll_mean 6 ys0 2 ∧
      roll_std_sq 6 xs0 2 = roll_std_sq 6 ys0 2) ∧
     ((rollWindow 6 xs0 2).length = min 6 3) ∧
     (roll_mean 6 xs0 2 = listMean (trailingValues 6 xs0 2)) ∧
     (roll_mean 6 xs0 0 = listMean (trailingValues 6 xs0 0)) ∧
     (roll_std_sq 6 xs0 0 = none) ∧
     (roll_std_sq 6 xs0 2 = some (listSampleVar (trailingValues 6 xs0 2)))) :=
  ⟨by decide, by decide, by decide, by decide,
    (claim_C3 xs0 ys0 6 2).1 (by decide),
    (claim_C3 xs0 ys0 6 2).2.1 (by decide),
    (claim_C3 xs0 ys0 6 2).2.2.1,
    (claim_C3 xs0 ys0 6 0).2.2.1,
    (claim_C3 xs0 ys0 6 2).2.2.2.1,
    (claim_C3 xs0 ys0 6 2).2.2.2.2 (by decide) (by decide) (by decide)⟩

end CareCast
